import Mathlib

/-!
Shallow embedding of the PSF-fitting model hierarchy in eleanor/models.py.

Modelling conventions:
* Python floats are modelled as exact rationals; transcendental and external
  library primitives (torch.exp, scipy.special.iv, real powers, atan2, the
  2-d convolution, the zernike library's angular tables) are passed in as
  function parameters, since their numeric bodies live outside the repository.
* A pixel image of the cutout shape (s1, s2) is a function Fin s1 → Fin s2 → ℚ.
* np.infty in the bounds tables is modelled by the extended-rational tag XQ.inf.
* Python code that can raise (tuple unpacking of the wrong arity, missing
  attributes, out-of-range indexing, unresolvable names) is Option-valued,
  with none standing for the raised exception.
-/

namespace Eleanor

/-- Extended rational used for bound entries: a finite value or np.infty. -/
inductive XQ where
  | fin (q : ℚ)
  | inf
deriving DecidableEq

/-- Per-star flux bounds: np.tile([0, np.infty], (len(self.xc), 1)) in Model.__init__. -/
def fluxBounds (nStars : ℕ) : List (XQ × XQ) :=
  List.replicate nStars (XQ.fin 0, XQ.inf)

/-- Shared xshift / yshift / background bounds appended in Model.__init__. -/
def baseExtraBounds : List (XQ × XQ) :=
  [(XQ.fin (-2.0), XQ.fin 2.0), (XQ.fin (-2.0), XQ.fin 2.0), (XQ.fin 0, XQ.inf)]

/-- Model.__init__: self.bounds = np.vstack((flux rows, shift/background rows)). -/
def modelBounds (nStars : ℕ) : List (XQ × XQ) :=
  fluxBounds nStars ++ baseExtraBounds

/-- Shape-specific rows appended by Gaussian.__init__. -/
def gaussianShapeBounds : List (XQ × XQ) :=
  [(XQ.fin 0, XQ.inf), (XQ.fin (-0.5), XQ.fin 0.5), (XQ.fin 0, XQ.inf)]

/-- Gaussian.__init__: self.bounds = np.vstack((self.bounds, shape rows)). -/
def gaussianBounds (nStars : ℕ) : List (XQ × XQ) :=
  modelBounds nStars ++ gaussianShapeBounds

/-- Shape-specific rows appended by Moffat.__init__. -/
def moffatShapeBounds : List (XQ × XQ) :=
  [(XQ.fin 0, XQ.inf), (XQ.fin (-0.5), XQ.fin 0.5), (XQ.fin 0, XQ.inf), (XQ.fin 0, XQ.inf)]

/-- Moffat.__init__: self.bounds = np.vstack((self.bounds, shape rows)). -/
def moffatBounds (nStars : ℕ) : List (XQ × XQ) :=
  modelBounds nStars ++ moffatShapeBounds

/-- Airy.__init__ only warns and calls super().__init__: no rows are appended. -/
def airyBounds (nStars : ℕ) : List (XQ × XQ) :=
  modelBounds nStars

/-- Zernike.__init__ calls super().__init__ and never touches self.bounds again. -/
def zernikeBounds (nStars : ℕ) : List (XQ × XQ) :=
  modelBounds nStars

/-- np.max over a (flattened) observed image; raises on an empty array. -/
def npMax : List ℚ → Option ℚ
  | [] => none
  | x :: xs => some (xs.foldl max x)

/-- Gaussian.get_default_optpars: np.array([1, 0, 1]). -/
def gaussianDefaultOptpars : List ℚ := [1, 0, 1]

/-- Moffat.get_default_optpars: np.array([1, 0, 1, 1]) for a, b, c, beta. -/
def moffatDefaultOptpars : List ℚ := [1, 0, 1, 1]

/-- The hard-coded 15-entry coefficient vector assigned to self.zpars in Zernike.__init__. -/
def zernikeZparsLiteral : List ℚ :=
  [0.2567228, 0.45743718, -0.28847825, 0.2567228, -0.0757324, 0.11844995,
   -0.28847825, 0.45743718, -0.04414153, -0.04167375, 0.2567228, 0.11844995,
   -0.0757324, 0.02526562, 0.07075336]

/-- The zpars assignment sequence of Zernike.__init__ as a function of the
least-squares result res.x: first self.zpars = res.x[5:], then self.zpars is
reassigned to the hard-coded literal vector. -/
def zernikeZpars (fitX : List ℚ) : List ℚ :=
  let zpars := fitX.drop 5
  let _ := zpars
  zernikeZparsLiteral

/-- Zernike.get_default_optpars: np.concatenate(([0.53327668, 0.53815343], self.zpars)). -/
def zernikeGetDefaultOptpars (zpars : List ℚ) : List ℚ :=
  [0.53327668, 0.53815343] ++ zpars

/-- Model.get_default_par: np.concatenate((np.max(d0) * np.ones(len(self.xc)),
[0, 0, self.bkg0], self.get_default_optpars())). -/
def getDefaultPar (nStars : ℕ) (bkg0 : ℚ) (optpars : List ℚ) (d0 : List ℚ) :
    Option (List ℚ) :=
  (npMax d0).map (fun m => List.replicate nStars m ++ [0, 0, bkg0] ++ optpars)

/-- The class names resolvable as shape models by eval() in PRFWrap.__init__. -/
inductive ModelName where
  | gaussian
  | moffat
  | airy
  | zernike
deriving DecidableEq

/-- Name resolution performed by eval(kwargs.get('model')) in PRFWrap.__init__:
an unresolvable name raises NameError at construction time. -/
def resolveModelName : String → Option ModelName
  | "Gaussian" => some ModelName.gaussian
  | "Moffat" => some ModelName.moffat
  | "Airy" => some ModelName.airy
  | "Zernike" => some ModelName.zernike
  | _ => none

/-- get_default_optpars dispatched per class; Airy defines none (and Model
defines none), so the lookup on an Airy submodel raises AttributeError. -/
def getDefaultOptparsOf : ModelName → Option (List ℚ)
  | ModelName.gaussian => some gaussianDefaultOptpars
  | ModelName.moffat => some moffatDefaultOptpars
  | ModelName.airy => none
  | ModelName.zernike => some (zernikeGetDefaultOptpars zernikeZparsLiteral)

/-! Coordinate grids and the base evaluation contract (Model._init_grid,
Model.evaluate, Model.mean). -/

/-- A pixel image of the cutout shape. -/
abbrev Mat (s1 s2 : ℕ) := Fin s1 → Fin s2 → ℚ

/-- torch.sum over a cutout-shaped image. -/
def matSum {s1 s2 : ℕ} (m : Mat s1 s2) : ℚ :=
  ∑ i : Fin s1, ∑ j : Fin s2, m i j

/-- np.linspace semantics of the complex-step slices in np.mgrid: num points
from start to stop inclusive; a single point collapses to start. -/
def linspace (start stop : ℚ) (num : ℕ) (i : ℕ) : ℚ :=
  if num ≤ 1 then start else start + i * ((stop - start) / ((num : ℚ) - 1))

/-- Model._init_grid: self.y = np.mgrid[r : r+s1-1 : 1j*s1, ...] first component,
the row coordinate varying along axis 0. -/
def gridY (rowRef : ℚ) (s1 s2 : ℕ) : Mat s1 s2 :=
  fun i _ => linspace rowRef (rowRef + (s1 : ℚ) - 1) s1 i

/-- Model._init_grid: self.x, the column coordinate varying along axis 1. -/
def gridX (colRef : ℚ) (s1 s2 : ℕ) : Mat s1 s2 :=
  fun _ j => linspace colRef (colRef + (s2 : ℚ) - 1) s2 j

/-- The per-star offset grid of Model.evaluate:
dx = self.x - (self.xc[j] + xs) resp. dy = self.y - (self.yc[j] + ys). -/
def evalDX {s1 s2 n : ℕ} (g : Mat s1 s2) (c : Fin n → ℚ) (j : Fin n) (shift : ℚ) :
    Mat s1 s2 :=
  fun i k => g i k - (c j + shift)

/-- Model.evaluate for a shape model whose psf is total on cutout images:
dx/dy offsets, the shape density, optional unit-sum normalization, flux scale.
P is the model's optical-parameter type. -/
def evaluateWith {s1 s2 n : ℕ} {P : Type} (x y : Mat s1 s2) (xc yc : Fin n → ℚ)
    (psf : Mat s1 s2 → Mat s1 s2 → P → Fin n → Mat s1 s2)
    (flux xs ys : ℚ) (params : P) (j : Fin n) (norm : Bool) : Mat s1 s2 :=
  let p := psf (evalDX x xc j xs) (evalDX y yc j ys) params j
  let psfSum := if norm then matSum p else 1
  fun i k => flux * p i k / psfSum

/-- Model.mean: sum of evaluate over all stars plus the scalar background,
which numpy broadcasts over every pixel. -/
def meanWith {s1 s2 n : ℕ} {P : Type} (x y : Mat s1 s2) (xc yc : Fin n → ℚ)
    (psf : Mat s1 s2 → Mat s1 s2 → P → Fin n → Mat s1 s2)
    (flux : Fin n → ℚ) (xs ys bkg : ℚ) (params : P) (norm : Bool) : Mat s1 s2 :=
  fun i k =>
    (∑ j : Fin n, evaluateWith x y xc yc psf (flux j) xs ys params j norm i k) + bkg

/-- Gaussian.psf: torch.exp(-(a * dx ** 2 + 2 * b * dx * dy + c * dy ** 2)),
with torch.exp supplied as the parameter expf. -/
def gaussianPsf {s1 s2 n : ℕ} (expf : ℚ → ℚ) :
    Mat s1 s2 → Mat s1 s2 → ℚ × ℚ × ℚ → Fin n → Mat s1 s2 :=
  fun dx dy params _ =>
    match params with
    | (a, b, c) =>
      fun i k => expf (-(a * dx i k ^ 2 + 2 * b * dx i k * dy i k + c * dy i k ^ 2))

/-! Dynamic (numpy/torch) value semantics, needed where the source's dynamic
typing matters: Moffat.psf declares its arguments as (params, dx, dy, j) while
Model.evaluate calls self.psf(dx, dy, params, j), so the cutout-shaped dx
tensor arrives in the position that the body tuple-unpacks. -/

/-- A runtime numpy/torch value: scalar, one-dimensional, or two-dimensional. -/
inductive PyVal where
  | scl (q : ℚ)
  | vec (v : List ℚ)
  | mat (m : List (List ℚ))
deriving DecidableEq

/-- Python tuple unpacking a, b, c, beta = t: a vector of length 4 yields its
scalars, a matrix of 4 rows yields its rows, anything else raises ValueError. -/
def unpack4 : PyVal → Option (PyVal × PyVal × PyVal × PyVal)
  | PyVal.vec [a, b, c, d] => some (PyVal.scl a, PyVal.scl b, PyVal.scl c, PyVal.scl d)
  | PyVal.mat [r1, r2, r3, r4] => some (PyVal.vec r1, PyVal.vec r2, PyVal.vec r3, PyVal.vec r4)
  | _ => none

/-- Elementwise combination of two equal-length vectors. -/
def zipSame (f : ℚ → ℚ → ℚ) (v w : List ℚ) : Option (List ℚ) :=
  if v.length = w.length then some (List.zipWith f v w) else none

/-- Broadcasting binary operation on runtime values, following numpy's rules
for the shapes that occur here (scalars broadcast everywhere; a vector against
a matrix broadcasts along the trailing axis; otherwise shapes must agree). -/
def bop (f : ℚ → ℚ → ℚ) : PyVal → PyVal → Option PyVal
  | PyVal.scl a, PyVal.scl b => some (PyVal.scl (f a b))
  | PyVal.scl a, PyVal.vec v => some (PyVal.vec (v.map (fun q => f a q)))
  | PyVal.vec v, PyVal.scl a => some (PyVal.vec (v.map (fun q => f q a)))
  | PyVal.scl a, PyVal.mat m => some (PyVal.mat (m.map (List.map (fun q => f a q))))
  | PyVal.mat m, PyVal.scl a => some (PyVal.mat (m.map (List.map (fun q => f q a))))
  | PyVal.vec v, PyVal.vec w => (zipSame f v w).map PyVal.vec
  | PyVal.vec v, PyVal.mat m => (m.mapM (fun row => zipSame f v row)).map PyVal.mat
  | PyVal.mat m, PyVal.vec v => (m.mapM (fun row => zipSame f row v)).map PyVal.mat
  | PyVal.mat m1, PyVal.mat m2 =>
    if m1.length = m2.length then
      ((List.zipWith (zipSame f) m1 m2).mapM id).map PyVal.mat
    else none

/-- torch.sum over a runtime value. -/
def pySum : PyVal → ℚ
  | PyVal.scl a => a
  | PyVal.vec v => v.sum
  | PyVal.mat m => (m.map List.sum).sum

/-- Moffat.psf exactly as declared in the source, signature (params, dx, dy, j):
a, b, c, beta = params; then
torch.true_divide(torch.tensor(1.), (1. + a*dx**2 + 2*b*dx*dy + c*dy**2) ** (beta**2)),
with the float power ** supplied as the parameter powf. -/
def moffatPsf (powf : ℚ → ℚ → ℚ) (params dx dy : PyVal) : Option PyVal := do
  let (a, b, c, beta) ← unpack4 params
  let dx2 ← bop powf dx (PyVal.scl 2)
  let dy2 ← bop powf dy (PyVal.scl 2)
  let t1 ← bop (fun u v => u * v) a dx2
  let tb ← bop (fun u v => u * v) (PyVal.scl 2) b
  let tbx ← bop (fun u v => u * v) tb dx
  let t2 ← bop (fun u v => u * v) tbx dy
  let t3 ← bop (fun u v => u * v) c dy2
  let s1 ← bop (fun u v => u + v) (PyVal.scl 1) t1
  let s2 ← bop (fun u v => u + v) s1 t2
  let base ← bop (fun u v => u + v) s2 t3
  let beta2 ← bop powf beta (PyVal.scl 2)
  let denom ← bop powf base beta2
  bop (fun u v => u / v) (PyVal.scl 1) denom

/-- Model.evaluate specialized to a Moffat shape model: the offset grids are
built from the coordinate grids, and the call self.psf(dx, dy, params, j)
binds dx to Moffat.psf's first formal parameter (named params), dy to its
second (named dx) and the optical parameter vector to its third (named dy). -/
def moffatEvaluate (powf : ℚ → ℚ → ℚ) (x y : List (List ℚ)) (xcj ycj : ℚ)
    (flux xs ys : ℚ) (params : List ℚ) (norm : Bool) : Option PyVal := do
  let dx := x.map (List.map (fun v => v - (xcj + xs)))
  let dy := y.map (List.map (fun v => v - (ycj + ys)))
  let psf ← moffatPsf powf (PyVal.mat dx) (PyVal.mat dy) (PyVal.vec params)
  let psfSum := if norm then pySum psf else 1
  let scaled ← bop (fun u v => u * v) (PyVal.scl flux) psf
  bop (fun u v => u / v) scaled (PyVal.scl psfSum)

/-- The Moffat pixel density as the specification states it, for comparison
with the code path: (1 + a*dx^2 + 2*b*dx*dy + c*dy^2)^(-beta^2) elementwise,
written with the same float-power parameter powf. -/
def moffatDensitySpec {s1 s2 : ℕ} (powf : ℚ → ℚ → ℚ) (a b c beta : ℚ)
    (dx dy : Mat s1 s2) : Mat s1 s2 :=
  fun i k =>
    1 / powf (1 + a * dx i k ^ 2 + 2 * b * dx i k * dy i k + c * dy i k ^ 2) (powf beta 2)

/-! PRFWrap: the pixel-response convolution wrapper. Its __init__ only builds
the submodel resolved from the 'model' keyword; it never calls Model.__init__,
so the instance has no prf attribute (nor grid or bounds). -/

/-- The attributes a PRFWrap instance owns after __init__: the wrapped model
(recorded by its class tag; the submodel itself is constructed by that class's
__init__ embedded above) and the never-assigned prf attribute slot. -/
structure PRFWrapObj where
  submodel : ModelName
  prf : Option (List (List ℚ))
deriving DecidableEq

/-- PRFWrap.__init__: self.submodel = eval(kwargs.get('model'))(**kwargs).
An unresolvable name raises NameError (construction fails fast); otherwise the
instance is returned with its prf attribute unset. -/
def prfWrapInit (name : String) : Option PRFWrapObj :=
  (resolveModelName name).map (fun m => { submodel := m, prf := none })

/-- PRFWrap.get_default_optpars: return self.submodel.get_default_optpars(). -/
def prfWrapGetDefaultOptpars (w : PRFWrapObj) : Option (List ℚ) :=
  getDefaultOptparsOf w.submodel

/-- PRFWrap.psf: torch.tensor(scipy.signal.convolve2d(self.submodel.psf(dx, dy,
params, j), self.prf)). The submodel's density and the 2-d convolution are
parameters; reading the absent prf attribute raises AttributeError. -/
def prfWrapPsf (convf : List (List ℚ) → List (List ℚ) → List (List ℚ))
    (subPsf : List (List ℚ) → List (List ℚ) → List ℚ → Option (List (List ℚ)))
    (w : PRFWrapObj) (dx dy : List (List ℚ)) (params : List ℚ) :
    Option (List (List ℚ)) := do
  let s ← subPsf dx dy params
  let prf ← w.prf
  some (convf s prf)

/-! The Zernike-residual model: mode mask, per-star cache of angular basis
images, and the density of Zernike.psf. The zernike library's angular basis
(cos/sin of multiples of theta through TorchZern.angular) enters as an
evaluated per-star, per-mode image parameter. -/

/-- np.abs on a scalar. -/
def npAbs (q : ℚ) : ℚ :=
  if q < 0 then -q else q

/-- Zernike.__init__: self.mode_mask = (np.abs(self.zpars) > cutoff).astype(int). -/
def modeMask (cutoff : ℚ) (zpars : List ℚ) : List ℕ :=
  zpars.map (fun p => if npAbs p > cutoff then 1 else 0)

/-- The cache entry built for star j and mode k by the construction loop:
the evaluated angular basis image when mode_mask[k] is truthy, an all-zero
image of cutout shape otherwise. -/
def zernikeCacheEntry {s1 s2 : ℕ} (mask : List ℕ) (ang : ℕ → Mat s1 s2) (k : ℕ) :
    Mat s1 s2 :=
  if mask.getD k 0 ≠ 0 then ang k else fun _ _ => 0

/-- Python tuple unpacking (a, c) = t of a length-2 slice. -/
def unpack2 : List ℚ → Option (ℚ × ℚ)
  | [a, c] => some (a, c)
  | _ => none

/-- The accumulation loop of Zernike.psf: psf_c starts at torch.zeros(shape);
for i in range(len(zpars)), read b = self.mode_mask[i] (IndexError past the
end of the mask) and add zpars[i] * cache[j][i] when b is truthy. -/
def zernikeAccum {s1 s2 : ℕ} (mask : List ℕ) (cachej : ℕ → Mat s1 s2)
    (acc : Mat s1 s2) : ℕ → List ℚ → Option (Mat s1 s2)
  | _, [] => some acc
  | i, p :: rest =>
    match mask[i]? with
    | none => none
    | some b =>
      zernikeAccum mask cachej
        (if b ≠ 0 then (fun r s => acc r s + p * cachej i r s) else acc) (i + 1) rest

/-- Zernike.psf: (a, c), zpars = params[:2], params[2:], the mode-masked
accumulation, then torch.exp(psf_c) * torch.exp(-a * dx ** 2 - c * dy ** 2). -/
def zernikePsf {s1 s2 : ℕ} (expf : ℚ → ℚ) (mask : List ℕ) (cachej : ℕ → Mat s1 s2)
    (dx dy : Mat s1 s2) (params : List ℚ) : Option (Mat s1 s2) := do
  let (a, c) ← unpack2 (params.take 2)
  let zpars := params.drop 2
  let psfC ← zernikeAccum mask cachej (fun _ _ => 0) 0 zpars
  some (fun i k => expf (psfC i k) * expf (-a * dx i k ^ 2 - c * dy i k ^ 2))

/-- Model.evaluate specialized to the Zernike shape model (whose psf can raise). -/
def zernikeEvaluate {s1 s2 n : ℕ} (expf : ℚ → ℚ) (mask : List ℕ)
    (cache : Fin n → ℕ → Mat s1 s2) (x y : Mat s1 s2) (xc yc : Fin n → ℚ)
    (flux xs ys : ℚ) (params : List ℚ) (j : Fin n) (norm : Bool) :
    Option (Mat s1 s2) := do
  let p ← zernikePsf expf mask (cache j) (evalDX x xc j xs) (evalDX y yc j ys) params
  let psfSum := if norm then matSum p else 1
  some (fun i k => flux * p i k / psfSum)

/-- Model.mean for the Zernike shape model: sum of evaluate over all stars
plus the scalar background. -/
def zernikeMean {s1 s2 n : ℕ} (expf : ℚ → ℚ) (mask : List ℕ)
    (cache : Fin n → ℕ → Mat s1 s2) (x y : Mat s1 s2) (xc yc : Fin n → ℚ)
    (flux : Fin n → ℚ) (xs ys bkg : ℚ) (params : List ℚ) (norm : Bool) :
    Option (Mat s1 s2) := do
  let evals ← (List.finRange n).mapM
    (fun j => zernikeEvaluate expf mask cache x y xc yc (flux j) xs ys params j norm)
  some (fun i k => (evals.map (fun e => e i k)).sum + bkg)

/-! The differentiable modified-Bessel primitive ModifiedBesselFn. The numeric
evaluator scipy.special.iv is the parameter iv; a tensor is a list of entries. -/

/-- ModifiedBesselFn.forward: elementwise iv(nu, inp); the order nu is stashed
on the context and the input tensor is saved for backward. -/
def besselForward (iv : ℚ → ℚ → ℚ) (nu : ℚ) (inp : List ℚ) : List ℚ :=
  inp.map (iv nu)

/-- ModifiedBesselFn.backward: 0.5 * grad_out * (apply(inp, nu - 1.0) +
apply(inp, nu + 1.0)) for the saved input, and None for the order. The two
apply calls re-run the same primitive's forward at shifted orders. -/
def besselBackward (iv : ℚ → ℚ → ℚ) (nu : ℚ) (inp gradOut : List ℚ) :
    List ℚ × Option (List ℚ) :=
  (List.zipWith (fun g s => 0.5 * g * s) gradOut
    (List.zipWith (fun u v => u + v) (besselForward iv (nu - 1) inp)
      (besselForward iv (nu + 1) inp)),
   none)

/-! Helper lemmas. -/

lemma length_modelBounds (n : ℕ) : (modelBounds n).length = n + 3 := by
  simp [modelBounds, fluxBounds, baseExtraBounds]

lemma modelBounds_getElem_base (n t : ℕ) :
    (modelBounds n)[n + t]? = baseExtraBounds[t]? := by
  unfold modelBounds
  rw [List.getElem?_append_right (by simp [fluxBounds])]
  simp [fluxBounds]

lemma appended_getElem_base (n t : ℕ) (ht : t < 3) (extra : List (XQ × XQ)) :
    (modelBounds n ++ extra)[n + t]? = baseExtraBounds[t]? := by
  have hlen : (modelBounds n).length = n + 3 := length_modelBounds n
  rw [List.getElem?_append_left (by omega), modelBounds_getElem_base n t]

lemma getDefaultPar_length (n : ℕ) (bkg0 : ℚ) (optpars d0 p : List ℚ)
    (h : getDefaultPar n bkg0 optpars d0 = some p) :
    p.length = n + 3 + optpars.length := by
  unfold getDefaultPar at h
  cases hd : npMax d0 with
  | none => rw [hd] at h; simp at h
  | some m =>
    rw [hd] at h
    have h2 : List.replicate n m ++ [0, 0, bkg0] ++ optpars = p := by simpa using h
    rw [← h2]
    simp
    omega

/-- C10: in every constructed bounds table, the rows following the per-star
flux rows are exactly [-2, 2] for the x-shift, [-2, 2] for the y-shift and
[0, np.infty] for the background; the only post-construction writes to
self.bounds are the subclass vstacks, whose final tables are listed here. -/
theorem shared_base_bounds_rows (n : ℕ) :
    ((modelBounds n)[n]? = some (XQ.fin (-2.0), XQ.fin 2.0) ∧
     (modelBounds n)[n + 1]? = some (XQ.fin (-2.0), XQ.fin 2.0) ∧
     (modelBounds n)[n + 2]? = some (XQ.fin 0, XQ.inf)) ∧
    ((gaussianBounds n)[n]? = some (XQ.fin (-2.0), XQ.fin 2.0) ∧
     (gaussianBounds n)[n + 1]? = some (XQ.fin (-2.0), XQ.fin 2.0) ∧
     (gaussianBounds n)[n + 2]? = some (XQ.fin 0, XQ.inf)) ∧
    ((moffatBounds n)[n]? = some (XQ.fin (-2.0), XQ.fin 2.0) ∧
     (moffatBounds n)[n + 1]? = some (XQ.fin (-2.0), XQ.fin 2.0) ∧
     (moffatBounds n)[n + 2]? = some (XQ.fin 0, XQ.inf)) ∧
    ((zernikeBounds n)[n]? = some (XQ.fin (-2.0), XQ.fin 2.0) ∧
     (zernikeBounds n)[n + 1]? = some (XQ.fin (-2.0), XQ.fin 2.0) ∧
     (zernikeBounds n)[n + 2]? = some (XQ.fin 0, XQ.inf)) ∧
    ((airyBounds n)[n]? = some (XQ.fin (-2.0), XQ.fin 2.0) ∧
     (airyBounds n)[n + 1]? = some (XQ.fin (-2.0), XQ.fin 2.0) ∧
     (airyBounds n)[n + 2]? = some (XQ.fin 0, XQ.inf)) := by
  have hb0 : (modelBounds n)[n]? = baseExtraBounds[0]? := modelBounds_getElem_base n 0
  have hb1 := modelBounds_getElem_base n 1
  have hb2 := modelBounds_getElem_base n 2
  have hg0 : (gaussianBounds n)[n]? = baseExtraBounds[0]? :=
    appended_getElem_base n 0 (by omega) gaussianShapeBounds
  have hg1 := appended_getElem_base n 1 (by omega) gaussianShapeBounds
  have hg2 := appended_getElem_base n 2 (by omega) gaussianShapeBounds
  have hm0 : (moffatBounds n)[n]? = baseExtraBounds[0]? :=
    appended_getElem_base n 0 (by omega) moffatShapeBounds
  have hm1 := appended_getElem_base n 1 (by omega) moffatShapeBounds
  have hm2 := appended_getElem_base n 2 (by omega) moffatShapeBounds
  exact ⟨⟨hb0.trans rfl, hb1.trans rfl, hb2.trans rfl⟩,
         ⟨hg0.trans rfl, hg1.trans rfl, hg2.trans rfl⟩,
         ⟨hm0.trans rfl, hm1.trans rfl, hm2.trans rfl⟩,
         ⟨hb0.trans rfl, hb1.trans rfl, hb2.trans rfl⟩,
         ⟨hb0.trans rfl, hb1.trans rfl, hb2.trans rfl⟩⟩

/-- C1 (amended): for the Gaussian and Moffat models the bounds table has the
same length as the default parameter vector and is the concatenation of flux,
shift/background and shape-specific rows in parameter order; the Zernike model
appends no shape rows, so its bounds table keeps length N + 3 while its
default vector has length N + 20; Airy appends no shape rows either, and
defines no default optical parameters at all. -/
theorem bounds_length_invariant (nStars : ℕ) (bkg0 : ℚ) (d0 pg pm pz : List ℚ)
    (hg : getDefaultPar nStars bkg0 gaussianDefaultOptpars d0 = some pg)
    (hm : getDefaultPar nStars bkg0 moffatDefaultOptpars d0 = some pm)
    (hz : getDefaultPar nStars bkg0 (zernikeGetDefaultOptpars zernikeZparsLiteral) d0
        = some pz) :
    pg.length = (gaussianBounds nStars).length ∧
    pm.length = (moffatBounds nStars).length ∧
    gaussianBounds nStars = fluxBounds nStars ++ baseExtraBounds ++ gaussianShapeBounds ∧
    moffatBounds nStars = fluxBounds nStars ++ baseExtraBounds ++ moffatShapeBounds ∧
    (zernikeBounds nStars).length = nStars + 3 ∧
    pz.length = nStars + 20 ∧
    airyBounds nStars = modelBounds nStars ∧
    getDefaultOptparsOf ModelName.airy = none := by
  have lg := getDefaultPar_length _ _ _ _ _ hg
  have lm := getDefaultPar_length _ _ _ _ _ hm
  have lz := getDefaultPar_length _ _ _ _ _ hz
  refine ⟨?_, ?_, rfl, rfl, length_modelBounds nStars, ?_, rfl, rfl⟩
  · rw [lg]
    simp [gaussianBounds, gaussianShapeBounds, gaussianDefaultOptpars, length_modelBounds]
  · rw [lm]
    simp [moffatBounds, moffatShapeBounds, moffatDefaultOptpars, length_modelBounds]
  · rw [lz]
    simp [zernikeGetDefaultOptpars, zernikeZparsLiteral]

/-- C1 (counterexample): for the Zernike model with one star, the bounds table
has 4 rows while the default parameter vector for the observed image [5] has
21 entries, so the claimed length invariant fails. -/
theorem bounds_length_invariant_cex :
    (getDefaultPar 1 0 (zernikeGetDefaultOptpars zernikeZparsLiteral) [5]).map List.length
      = some 21 ∧
    (zernikeBounds 1).length = 4 ∧ (21 : ℕ) ≠ 4 :=
  ⟨rfl, rfl, by decide⟩

/-- C1 (witness). -/
theorem bounds_length_invariant_witness :
    getDefaultPar 1 0 gaussianDefaultOptpars [5] = some [5, 0, 0, 0, 1, 0, 1] ∧
    (([5, 0, 0, 0, 1, 0, 1] : List ℚ).length = (gaussianBounds 1).length ∧
     ([5, 0, 0, 0, 1, 0, 1, 1] : List ℚ).length = (moffatBounds 1).length ∧
     gaussianBounds 1 = fluxBounds 1 ++ baseExtraBounds ++ gaussianShapeBounds ∧
     moffatBounds 1 = fluxBounds 1 ++ baseExtraBounds ++ moffatShapeBounds ∧
     (zernikeBounds 1).length = 1 + 3 ∧
     ((5 : ℚ) :: 0 :: 0 :: 0 :: zernikeGetDefaultOptpars zernikeZparsLiteral).length
        = 1 + 20 ∧
     airyBounds 1 = modelBounds 1 ∧
     getDefaultOptparsOf ModelName.airy = none) :=
  ⟨rfl, bounds_length_invariant 1 0 [5] _ _ _ rfl rfl rfl⟩

/-- C7: the zpars assignment sequence of Zernike.__init__ always ends at the
hard-coded 15-entry literal, whatever least-squares result res.x the
calibration fit produced; two constructions from different reference images
(hence different fit results) end with identical zpars. -/
theorem zernike_zpars_override (fit1 fit2 : List ℚ) :
    zernikeZpars fit1 = zernikeZparsLiteral ∧
    zernikeZpars fit1 = zernikeZpars fit2 ∧
    (zernikeZpars fit1).length = 15 :=
  ⟨rfl, rfl, rfl⟩

lemma linspace_unit (a : ℚ) (num : ℕ) (i : ℕ) (h0 : 0 < num) (hi : i < num) :
    linspace a (a + (num : ℚ) - 1) num i = a + i := by
  unfold linspace
  by_cases h : num ≤ 1
  · have hz : i = 0 := by omega
    subst hz
    simp [h]
  · have h2 : (2 : ℚ) ≤ (num : ℚ) := by exact_mod_cast (by omega : 2 ≤ num)
    have hne : ((num : ℚ) - 1) ≠ 0 := by linarith
    rw [if_neg h]
    have hd : a + (num : ℚ) - 1 - a = (num : ℚ) - 1 := by ring
    rw [hd, div_self hne, mul_one]

/-- C8: the construction grid satisfies y[i,j] = row_ref + i and
x[i,j] = col_ref + j, and Model.evaluate's per-star offsets are
dx = x - (xc[j] + xshift) and dy = y - (yc[j] + yshift). -/
theorem grid_and_offsets (r c : ℚ) (s1 s2 n : ℕ) (i : Fin s1) (j : Fin s2)
    (xc yc : Fin n → ℚ) (t : Fin n) (xs ys : ℚ) :
    gridY r s1 s2 i j = r + ((i : ℕ) : ℚ) ∧
    gridX c s1 s2 i j = c + ((j : ℕ) : ℚ) ∧
    evalDX (gridX c s1 s2) xc t xs i j = (c + ((j : ℕ) : ℚ)) - (xc t + xs) ∧
    evalDX (gridY r s1 s2) yc t ys i j = (r + ((i : ℕ) : ℚ)) - (yc t + ys) := by
  have hy : gridY r s1 s2 i j = r + ((i : ℕ) : ℚ) :=
    linspace_unit r s1 i i.pos i.isLt
  have hx : gridX c s1 s2 i j = c + ((j : ℕ) : ℚ) :=
    linspace_unit c s2 j j.pos j.isLt
  refine ⟨hy, hx, ?_, ?_⟩
  · show gridX c s1 s2 i j - (xc t + xs) = (c + ((j : ℕ) : ℚ)) - (xc t + xs)
    rw [hx]
  · show gridY r s1 s2 i j - (yc t + ys) = (r + ((i : ℕ) : ℚ)) - (yc t + ys)
    rw [hy]

/-- C4: Model.mean produces an image of the cutout shape (the type Mat s1 s2),
and changing only the background argument by delta shifts every pixel of the
result by exactly delta, for every shape model and parameter assignment. -/
theorem mean_background_shift (s1 s2 n : ℕ) (P : Type) (x y : Mat s1 s2)
    (xc yc : Fin n → ℚ) (psf : Mat s1 s2 → Mat s1 s2 → P → Fin n → Mat s1 s2)
    (flux : Fin n → ℚ) (xs ys bkg delta : ℚ) (params : P) (norm : Bool) :
    meanWith x y xc yc psf flux xs ys (bkg + delta) params norm
      = fun i k => meanWith x y xc yc psf flux xs ys bkg params norm i k + delta := by
  funext i k
  simp only [meanWith]
  ring

/-- C2: Model.evaluate passes (dx, dy, params, j) into Moffat.psf, whose
formal parameter list is (params, dx, dy, j); the body's tuple unpacking then
receives the cutout-shaped dx tensor, so on a 2x2 cutout with one star at
(0, 0) and the default optical parameters (1, 0, 1, 1) the evaluation raises
ValueError instead of returning the density the claim states, for every float
power function. -/
theorem moffat_evaluate_scrambled (powf : ℚ → ℚ → ℚ) :
    moffatEvaluate powf [[0, 1], [0, 1]] [[0, 0], [1, 1]] 0 0 1 0 0 [1, 0, 1, 1] true
      = none :=
  rfl

/-- C5: with normalize=True the Gaussian model's unit-flux single-star density
sums to exactly 1 over the cutout whenever the raw density's sum is nonzero;
the Moffat half of the claim fails, because the argument scramble of
Moffat.psf makes evaluate raise on this 2x2 cutout instead of returning a
unit-sum density. -/
theorem gaussian_unit_flux_normalization (s1 s2 n : ℕ) (expf : ℚ → ℚ)
    (x y : Mat s1 s2) (xc yc : Fin n → ℚ) (a b c xs ys : ℚ) (j : Fin n)
    (h : matSum (gaussianPsf expf (evalDX x xc j xs) (evalDX y yc j ys) (a, b, c) j) ≠ 0) :
    matSum (evaluateWith x y xc yc (gaussianPsf expf) 1 xs ys (a, b, c) j true) = 1 ∧
    moffatEvaluate (fun u v => u * v) [[1, 2], [1, 2]] [[3, 3], [4, 4]] 1 3 2 0 0
      [1, 0, 1, 1] true = none := by
  refine ⟨?_, rfl⟩
  show matSum (fun i k =>
      1 * gaussianPsf expf (evalDX x xc j xs) (evalDX y yc j ys) (a, b, c) j i k /
        matSum (gaussianPsf expf (evalDX x xc j xs) (evalDX y yc j ys) (a, b, c) j)) = 1
  simp only [one_mul, matSum, ← Finset.sum_div]
  exact div_self h

/-- C5 (witness). -/
theorem gaussian_unit_flux_normalization_witness :
    matSum (@gaussianPsf 1 1 1 (fun _ => 1)
        (@evalDX 1 1 1 (fun _ _ => 0) (fun _ => 0) 0 0)
        (@evalDX 1 1 1 (fun _ _ => 0) (fun _ => 0) 0 0)
        (0, 0, 0) 0) ≠ 0 ∧
    (matSum (@evaluateWith 1 1 1 (ℚ × ℚ × ℚ) (fun _ _ => 0) (fun _ _ => 0)
        (fun _ => 0) (fun _ => 0) (gaussianPsf (fun _ => 1)) 1 0 0 (0, 0, 0) 0 true) = 1 ∧
     moffatEvaluate (fun u v => u * v) [[1, 2], [1, 2]] [[3, 3], [4, 4]] 1 3 2 0 0
       [1, 0, 1, 1] true = none) :=
  ⟨by simp [matSum, gaussianPsf, evalDX],
   gaussian_unit_flux_normalization 1 1 1 (fun _ => 1) (fun _ _ => 0) (fun _ _ => 0)
     (fun _ => 0) (fun _ => 0) 0 0 0 0 0 0 (by simp [matSum, gaussianPsf, evalDX])⟩

lemma getD_map (g : ℚ → ℚ) (l : List ℚ) (i : ℕ) (h : i < l.length) :
    (l.map g).getD i 0 = g (l.getD i 0) := by
  induction l generalizing i with
  | nil => simp at h
  | cons a l ih =>
    cases i with
    | zero => rfl
    | succ m =>
      simp only [List.map_cons, List.getD_cons_succ]
      exact ih m (by simpa using h)

lemma getD_zipWith (f : ℚ → ℚ → ℚ) (as : List ℚ) :
    ∀ (bs : List ℚ) (i : ℕ), i < as.length → i < bs.length →
      (List.zipWith f as bs).getD i 0 = f (as.getD i 0) (bs.getD i 0) := by
  induction as with
  | nil => intro bs i h1 _; simp at h1
  | cons a as ih =>
    intro bs i h1 h2
    cases bs with
    | nil => simp at h2
    | cons b bs =>
      cases i with
      | zero => rfl
      | succ m =>
        simp only [List.zipWith_cons_cons, List.getD_cons_succ]
        exact ih bs m (by simpa using h1) (by simpa using h2)

/-- C3: the modified-Bessel primitive's backward pass returns, elementwise,
0.5 * grad * (iv(nu-1, x) + iv(nu+1, x)) for the saved input tensor (re-running
the primitive's forward at orders nu-1 and nu+1), and None as the gradient with
respect to the order, for every underlying evaluator iv. -/
theorem bessel_backward_rule (iv : ℚ → ℚ → ℚ) (nu : ℚ) (inp g : List ℚ) (i : ℕ)
    (hg : g.length = inp.length) (hi : i < inp.length) :
    ((besselBackward iv nu inp g).1).getD i 0
      = 0.5 * g.getD i 0 * (iv (nu - 1) (inp.getD i 0) + iv (nu + 1) (inp.getD i 0)) ∧
    (besselBackward iv nu inp g).2 = none ∧
    ((besselBackward iv nu inp g).1).length = inp.length := by
  refine ⟨?_, rfl, ?_⟩
  · unfold besselBackward besselForward
    rw [getD_zipWith, getD_zipWith, getD_map, getD_map]
    · exact hi
    · exact hi
    · simpa using hi
    · simpa using hi
    · omega
    · simp
      omega
  · simp [besselBackward, besselForward]
    omega

/-- C3 (witness). -/
theorem bessel_backward_rule_witness :
    ([4, 5] : List ℚ).length = ([2, 3] : List ℚ).length ∧
    (((besselBackward (fun u v => u + v) 1 [2, 3] [4, 5]).1).getD 1 0
        = 0.5 * ([4, 5] : List ℚ).getD 1 0 *
          ((fun u v => u + v) (1 - 1) (([2, 3] : List ℚ).getD 1 0) +
           (fun u v => u + v) (1 + 1) (([2, 3] : List ℚ).getD 1 0)) ∧
     (besselBackward (fun u v => u + v) 1 [2, 3] [4, 5]).2 = none ∧
     ((besselBackward (fun u v => u + v) 1 [2, 3] [4, 5]).1).length
        = ([2, 3] : List ℚ).length) :=
  ⟨rfl, bessel_backward_rule (fun u v => u + v) 1 [2, 3] [4, 5] 1 rfl (by decide)⟩

/-- C9: whenever PRFWrap construction succeeds, default-parameter queries are
forwarded to the wrapped model, but the instance's prf attribute was never
assigned (PRFWrap.__init__ skips Model.__init__), so the claimed convolution
density raises AttributeError instead of returning a value; an unresolvable
wrapped-model name makes construction itself fail fast. -/
theorem prfwrap_behavior (name : String) (w : PRFWrapObj)
    (hw : prfWrapInit name = some w)
    (convf : List (List ℚ) → List (List ℚ) → List (List ℚ))
    (subPsf : List (List ℚ) → List (List ℚ) → List ℚ → Option (List (List ℚ)))
    (dx dy : List (List ℚ)) (params : List ℚ) :
    prfWrapGetDefaultOptpars w = getDefaultOptparsOf w.submodel ∧
    w.prf = none ∧
    prfWrapPsf convf subPsf w dx dy params = none ∧
    prfWrapInit "NotAShapeModel" = none := by
  have hprf : w.prf = none := by
    unfold prfWrapInit at hw
    cases hr : resolveModelName name with
    | none => rw [hr] at hw; simp at hw
    | some m =>
      rw [hr] at hw
      simp only [Option.map_some'] at hw
      have := Option.some.inj hw
      rw [← this]
  refine ⟨rfl, hprf, ?_, rfl⟩
  unfold prfWrapPsf
  cases subPsf dx dy params with
  | none => rfl
  | some s => simp [hprf]

/-- C9 (witness). -/
theorem prfwrap_behavior_witness :
    prfWrapInit "Gaussian" = some { submodel := ModelName.gaussian, prf := none } ∧
    (prfWrapGetDefaultOptpars { submodel := ModelName.gaussian, prf := none }
        = getDefaultOptparsOf ModelName.gaussian ∧
     ({ submodel := ModelName.gaussian, prf := none } : PRFWrapObj).prf = none ∧
     prfWrapPsf (fun u _ => u) (fun _ _ _ => some [[1]])
       { submodel := ModelName.gaussian, prf := none } [[1]] [[1]] [] = none ∧
     prfWrapInit "NotAShapeModel" = none) :=
  ⟨rfl, prfwrap_behavior "Gaussian" { submodel := ModelName.gaussian, prf := none } rfl
    (fun u _ => u) (fun _ _ _ => some [[1]]) [[1]] [[1]] []⟩

lemma zernikeAccum_congr {s1 s2 : ℕ} (mask : List ℕ) (cachej : ℕ → Mat s1 s2) :
    ∀ (zp zp' : List ℚ) (i : ℕ) (acc : Mat s1 s2),
      zp.length = zp'.length →
      (∀ t, t < zp.length → mask.getD (i + t) 0 ≠ 0 → zp.getD t 0 = zp'.getD t 0) →
      zernikeAccum mask cachej acc i zp = zernikeAccum mask cachej acc i zp' := by
  intro zp
  induction zp with
  | nil =>
    intro zp' i acc hlen _
    cases zp' with
    | nil => rfl
    | cons q qs => simp at hlen
  | cons p rest ih =>
    intro zp' i acc hlen hsame
    cases zp' with
    | nil => simp at hlen
    | cons p' rest' =>
      have hrest : ∀ t, t < rest.length → mask.getD (i + 1 + t) 0 ≠ 0 →
          rest.getD t 0 = rest'.getD t 0 := by
        intro t ht hmask
        have := hsame (t + 1) (by simpa using Nat.succ_lt_succ ht)
          (by rw [show i + (t + 1) = i + 1 + t by omega]; exact hmask)
        simpa using this
      cases hm : mask[i]? with
      | none => simp [zernikeAccum, hm]
      | some b =>
        simp only [zernikeAccum, hm]
        by_cases hb : b = 0
        · subst hb
          simp only [ne_eq, not_true_eq_false, if_false]
          exact ih rest' (i + 1) acc (by simpa using hlen) hrest
        · have hmaskb : mask.getD i 0 = b := by
            rw [List.getD_eq_getElem?_getD, hm]
            rfl
          have hp : p = p' := by
            have := hsame 0 (by simp) (by rw [Nat.add_zero, hmaskb]; exact hb)
            simpa using this
          subst hp
          simp only [ne_eq, hb, not_false_eq_true, if_true]
          exact ih rest' (i + 1) _ (by simpa using hlen) hrest

lemma zernikePsf_congr {s1 s2 : ℕ} (expf : ℚ → ℚ) (mask : List ℕ)
    (cachej : ℕ → Mat s1 s2) (dx dy : Mat s1 s2) (params params' : List ℚ)
    (htake : params.take 2 = params'.take 2)
    (hlen : (params.drop 2).length = (params'.drop 2).length)
    (hsame : ∀ t, t < (params.drop 2).length → mask.getD t 0 ≠ 0 →
        (params.drop 2).getD t 0 = (params'.drop 2).getD t 0) :
    zernikePsf expf mask cachej dx dy params = zernikePsf expf mask cachej dx dy params' := by
  have haccum : zernikeAccum mask cachej (fun _ _ => 0) 0 (params.drop 2)
      = zernikeAccum mask cachej (fun _ _ => 0) 0 (params'.drop 2) :=
    zernikeAccum_congr mask cachej _ _ 0 _ hlen
      (fun t ht hmask => hsame t ht (by simpa using hmask))
  unfold zernikePsf
  rw [htake]
  cases hu : unpack2 (params'.take 2) with
  | none => rfl
  | some ac =>
    obtain ⟨a, c⟩ := ac
    simp only [hu, Option.bind_some, Option.some_bind]
    rw [haccum]

/-- C6: in the Zernike-residual model, the cache entry the construction loop
builds for any mode whose mask entry is 0 is the all-zero image of cutout
shape, and two optical parameter vectors that agree on (a, c) and differ only
in zpars entries whose mask entry is 0 produce identical mean output; in the
constructed instance the mask computed from the hard-coded zpars is all ones. -/
theorem zernike_mode_mask (s1 s2 n : ℕ) (expf : ℚ → ℚ) (mask : List ℕ)
    (ang : ℕ → Mat s1 s2) (cache : Fin n → ℕ → Mat s1 s2) (x y : Mat s1 s2)
    (xc yc : Fin n → ℚ) (flux : Fin n → ℚ) (xs ys bkg : ℚ) (norm : Bool) (k : ℕ)
    (params params' : List ℚ)
    (hk : mask.getD k 0 = 0)
    (htake : params.take 2 = params'.take 2)
    (hlen : (params.drop 2).length = (params'.drop 2).length)
    (hsame : ∀ t, t < (params.drop 2).length → mask.getD t 0 ≠ 0 →
        (params.drop 2).getD t 0 = (params'.drop 2).getD t 0) :
    zernikeCacheEntry mask ang k = (fun _ _ => (0 : ℚ)) ∧
    zernikeMean expf mask cache x y xc yc flux xs ys bkg params norm
      = zernikeMean expf mask cache x y xc yc flux xs ys bkg params' norm ∧
    modeMask 0 zernikeZparsLiteral = List.replicate 15 1 := by
  refine ⟨?_, ?_, ?_⟩
  · unfold zernikeCacheEntry
    rw [if_neg (not_not_intro hk)]
  · have heval :
        (fun j : Fin n => zernikeEvaluate expf mask cache x y xc yc (flux j) xs ys params j norm)
          = (fun j : Fin n =>
              zernikeEvaluate expf mask cache x y xc yc (flux j) xs ys params' j norm) := by
      funext j
      unfold zernikeEvaluate
      rw [zernikePsf_congr expf mask (cache j) _ _ params params' htake hlen hsame]
    unfold zernikeMean
    rw [heval]
  · norm_num [modeMask, zernikeZparsLiteral, npAbs, List.replicate]

/-- C6 (witness). -/
theorem zernike_mode_mask_witness :
    (([0] : List ℕ).getD 0 0 = 0) ∧
    (@zernikeCacheEntry 1 1 [0] (fun _ _ _ => 5) 0 = (fun _ _ => (0 : ℚ)) ∧
     @zernikeMean 1 1 1 (fun _ => 1) [0] (fun _ _ _ _ => 0) (fun _ _ => 0) (fun _ _ => 0)
         (fun _ => 0) (fun _ => 0) (fun _ => 1) 0 0 0 [1, 2, 3] true
       = @zernikeMean 1 1 1 (fun _ => 1) [0] (fun _ _ _ _ => 0) (fun _ _ => 0) (fun _ _ => 0)
         (fun _ => 0) (fun _ => 0) (fun _ => 1) 0 0 0 [1, 2, 4] true ∧
     modeMask 0 zernikeZparsLiteral = List.replicate 15 1) :=
  ⟨rfl, zernike_mode_mask 1 1 1 (fun _ => 1) [0] (fun _ _ _ => 5) (fun _ _ _ _ => 0)
    (fun _ _ => 0) (fun _ _ => 0) (fun _ => 0) (fun _ => 0) (fun _ => 1) 0 0 0 true 0
    [1, 2, 3] [1, 2, 4] rfl rfl rfl
    (by
      intro t ht h
      have ht1 : t < 1 := by simpa using ht
      have ht0 : t = 0 := by omega
      subst ht0
      exact absurd rfl h)⟩

end Eleanor
